import Mathlib

/-!
Verification of the DNA event-driven graph execution engine.

Shallow embedding of the runtime engine: the event model
(`app/engine/graph/graph_event.py`), the node processing pipeline
(`app/engine/nodes/base_node.py`), the observer graph
(`app/engine/graph/graph.py`), the switch node and processor
(`dna_core/engine/nodes/condition/switch_node.py`,
`app/engine/nodes/condition/switch_processor.py`), the HTTP retry
processors (`app/engine/nodes/http/http_processor.py`) and the MQTT
connection manager
(`dna_core/engine/nodes/mqtt/mqtt_connection_manager.py`).

Python values are embedded as `Val`; Python exceptions as `Except Exn`;
async functions as pure functions (the engine is single-scheduler
cooperative, so each `await` chain is a sequential computation).
Downstream observer behaviour is not recursed into: `notify_observers`
swallows every observer exception, so the transition of a node depends
only on the list of observers, which the model records as the delivery
trace.
-/

namespace DNA

abbrev Exn := String

/-- Embedding of Python runtime values (payloads, metadata values). -/
inductive Val where
  | null : Val
  | bool : Bool → Val
  | int : Int → Val
  | str : String → Val
  | list : List Val → Val
  | dict : List (String × Val) → Val
deriving Repr

/-- Python truthiness (`if x:`) for embedded values. -/
def Val.truthy : Val → Bool
  | .null => false
  | .bool b => b
  | .int n => n != 0
  | .str s => s != ""
  | .list l => !l.isEmpty
  | .dict m => !m.isEmpty

/-- Python `str == value` comparison: a `str` equals only an equal `str`. -/
def pyStrEq (s : String) (v : Val) : Bool :=
  match v with
  | .str t => s = t
  | _ => false

/-- Python `d[k] = v` on a dict embedded as an association list with
unique keys: an existing key keeps its position and gets the new value,
a new key is appended (insertion order). -/
def dictSet : List (String × Val) → String → Val → List (String × Val)
  | [], k, v => [(k, v)]
  | (k1, v1) :: rest, k, v =>
    if k1 = k then (k1, v) :: rest else (k1, v1) :: dictSet rest k v

/-- Python `{**base-literal, **upd}`: start from the literal entries and
write every entry of `upd` over them in order (`upd` wins on clashes). -/
def dictMerge (base upd : List (String × Val)) : List (String × Val) :=
  upd.foldl (fun d p => dictSet d p.1 p.2) base

/-- `d.get(k)` on a Python dict: the value if present, else `None`. -/
def dictGet (d : List (String × Val)) (k : String) : Val :=
  (d.lookup k).getD .null

/-- `EventType` enum of `graph_event.py`. -/
inductive EventType where
  | DATA_CHANGE | COMPUTATION_RESULT | LLM_REQUEST | LMM_RESPONSE
  | LLM_TOKEN | ERROR | ALERT | NOTIFICATION | ROUTING_DECISION
  | MQTT_MESSAGE | MQTT_PUBLISH | MQTT_CONNECTED | MQTT_DISCONNECTED
  | CUSTOM
deriving Repr, DecidableEq

/-- `NodeState` enum of `graph_event.py`. -/
inductive NodeState where
  | IDLE | PROCESSING | ERROR | DISABLED
deriving Repr, DecidableEq

/-- `GraphEvent` dataclass of `graph_event.py`.  The process-generated
`id` and `timestamp` defaults are environment inputs and are passed
explicitly wherever the code constructs a fresh event. -/
structure GraphEvent where
  id : String := ""
  type : EventType := .CUSTOM
  source_id : String := ""
  target_id : Option String := none
  timestamp : String := ""
  data : Val := .null
  metadata : List (String × Val) := []
  priority : Int := 0
deriving Repr

/-- The `_metrics` dict of `BaseNode`. -/
structure Metrics where
  events_processed : Nat := 0
  events_sent : Nat := 0
  errors : Nat := 0
  last_activity : Option String := none
deriving Repr, DecidableEq

/-- Middleware capability (`i_middleware`): paired async hooks that may
raise. -/
structure Middleware where
  before : GraphEvent → String → Except Exn GraphEvent
  after : GraphEvent → Option GraphEvent → String → Except Exn (Option GraphEvent)

/-- The context snapshot built by `BaseNode._build_context`. -/
structure Context where
  node_id : String
  node_type : String
  config : List (String × Val)
  current_data : Val
  incoming_nodes : List String
  outgoing_nodes : List String
  metrics : Metrics
  recent_events : List GraphEvent

/-- Processor capability (`i_processor`): dispatch predicate plus an
async transform that may raise and may return no event. -/
structure Processor where
  canHandle : GraphEvent → Bool
  process : GraphEvent → Context → Except Exn (Option GraphEvent)

/-- The node-local state of `BaseNode`.  Observers are recorded by id:
delivering to an observer is an output of the model (the delivery
trace), not a recursive call, because `notify_observers` swallows every
exception an observer raises. -/
structure Node where
  id : String
  node_type : String := "base"
  data : Val := .null
  config : List (String × Val) := []
  state : NodeState := .IDLE
  observers : List String := []
  outgoingIds : List String := []
  incomingIds : List String := []
  processors : List Processor := []
  middleware : List Middleware := []
  eventFilters : List (GraphEvent → Except Exn Bool) := []
  eventHistory : List GraphEvent := []
  metrics : Metrics := {}

/-- `deque(maxlen=100)` append: FIFO eviction past 100 entries. -/
def pushHistory (h : List GraphEvent) (e : GraphEvent) : List GraphEvent :=
  let h' := h ++ [e]
  if h'.length > 100 then h'.drop (h'.length - 100) else h'

/-- `BaseNode._build_context`. -/
def buildContext (n : Node) : Context :=
  { node_id := n.id
    node_type := n.node_type
    config := n.config
    current_data := n.data
    incoming_nodes := n.incomingIds
    outgoing_nodes := n.outgoingIds
    metrics := n.metrics
    recent_events := n.eventHistory.drop (n.eventHistory.length - 10) }

/-- `BaseNode.notify_observers`: stamp `source_id`, append to history,
bump `events_sent` and `last_activity`, then attempt delivery to every
observer (failures are swallowed per observer).  Returns the updated
node together with the delivery trace. -/
def notifyObservers (n : Node) (e : GraphEvent) (now : String) :
    Node × List (String × GraphEvent) :=
  let e' := { e with source_id := n.id }
  let n' := { n with
    eventHistory := pushHistory n.eventHistory e'
    metrics := { n.metrics with
      events_sent := n.metrics.events_sent + 1
      last_activity := some now } }
  (n', n.observers.map (fun oid => (oid, e')))

/-- The filter loop of `BaseNode._should_process_event`: every filter
must accept.  Filters run outside the try of `update`, so a raising
filter propagates (`Except.error`). -/
def runFilters (e : GraphEvent) :
    List (GraphEvent → Except Exn Bool) → Except Exn Bool
  | [] => .ok true
  | f :: fs =>
    match f e with
    | .error msg => .error msg
    | .ok b => if b then runFilters e fs else .ok false

/-- `BaseNode._should_process_event`: DISABLED drops the event, then
every filter must accept. -/
def shouldProcessEvent (n : Node) (e : GraphEvent) : Except Exn Bool :=
  if n.state = .DISABLED then
    .ok false
  else
    runFilters e n.eventFilters

/-- The `before_process` middleware chain of `BaseNode.update` step 4:
each hook's output is threaded into the next. -/
def runBefore (ms : List Middleware) (e : GraphEvent) (nid : String) :
    Except Exn GraphEvent :=
  match ms with
  | [] => .ok e
  | m :: rest =>
    match m.before e nid with
    | .error msg => .error msg
    | .ok e' => runBefore rest e' nid

/-- Processor selection of `BaseNode.update` step 6: the first processor
whose `can_handle` accepts runs; if none matches the result is `none`. -/
def runProcessors (ps : List Processor) (e : GraphEvent) (ctx : Context) :
    Except Exn (Option GraphEvent) :=
  match ps with
  | [] => .ok none
  | p :: rest =>
    if p.canHandle e then p.process e ctx
    else runProcessors rest e ctx

/-- The `after_process` middleware chain of `BaseNode.update` step 7. -/
def runAfter (ms : List Middleware) (processed : GraphEvent)
    (res : Option GraphEvent) (nid : String) :
    Except Exn (Option GraphEvent) :=
  match ms with
  | [] => .ok res
  | m :: rest =>
    match m.after processed res nid with
    | .error msg => .error msg
    | .ok r => runAfter rest processed r nid

/-- `BaseNode.create_error_event`: ERROR event whose payload wraps the
message and the original data, and whose metadata is the dict literal
`\x7b"status": "error", **original_event.metadata\x7d` — the original
metadata entries are written over the literal, so an original `status`
entry overrides `"error"`. -/
def createErrorEvent (msg : String) (orig : GraphEvent) (nid : String)
    (freshId ts : String) : GraphEvent :=
  { id := freshId
    type := .ERROR
    data := .dict [("error", .str msg), ("original_request", orig.data)]
    source_id := nid
    timestamp := ts
    metadata := dictMerge [("status", .str "error")] orig.metadata }

/-- Steps 4–8 of `BaseNode.update` (the body of the `try`): before
chain, processor selection against the freshly built context, after
chain, and fan-out when the result is non-null (a `GraphEvent` instance
is always truthy in Python, so `if result_event:` is exactly
`isSome`). -/
def runPipeline (n : Node) (e : GraphEvent) (now : String) :
    Except Exn (Node × List (String × GraphEvent)) :=
  match runBefore n.middleware e n.id with
  | .error msg => .error msg
  | .ok processed =>
    match runProcessors n.processors processed (buildContext n) with
    | .error msg => .error msg
    | .ok res0 =>
      match runAfter n.middleware processed res0 n.id with
      | .error msg => .error msg
      | .ok (some ev) => .ok (notifyObservers n ev now)
      | .ok none => .ok (n, [])

/-- Step 3 of `BaseNode.update`: transition to PROCESSING and bump
`events_processed`. -/
def markProcessing (n : Node) : Node :=
  { n with
    state := .PROCESSING
    metrics := { n.metrics with
      events_processed := n.metrics.events_processed + 1 } }

/-- `BaseNode.update`: drop unless `_should_process_event` accepts (a
filter exception propagates), mark PROCESSING and count the event, run
the pipeline, end IDLE on success; on a pipeline exception count an
error, end ERROR, and fan out the synthesized error event. -/
def update (n : Node) (e : GraphEvent) (now freshId ts : String) :
    Except Exn (Node × List (String × GraphEvent)) :=
  match shouldProcessEvent n e with
  | .error msg => .error msg
  | .ok false => .ok (n, [])
  | .ok true =>
    let n1 := markProcessing n
    match runPipeline n1 e now with
    | .ok (n2, trace) => .ok ({ n2 with state := .IDLE }, trace)
    | .error msg =>
      let n2 := { n1 with
        state := .ERROR
        metrics := { n1.metrics with errors := n1.metrics.errors + 1 } }
      let errEvent := createErrorEvent msg e n.id freshId ts
      .ok (notifyObservers n2 errEvent now)

/-! ### Edge operations (`BaseNode.add_edge_to` / `remove_edge_to`)

`a.add_edge_to(t)` touches exactly three collections: `a._outgoing_edges`,
`t._incoming_edges` and `a._observers` (all Python sets).  For two
distinct nodes `a` and `t` these three sets are embedded together as an
`EdgeState` triple. -/

/-- The three collections touched by the edge operations of node `a`
towards node `t`: the outgoing set of `a`, the incoming set of `t`, and
the observer set of `a`. -/
structure EdgeState where
  outgoing : Finset String
  incoming : Finset String
  observers : Finset String
deriving DecidableEq

/-- `BaseNode.add_edge_to`: guarded on `target not in self._outgoing_edges`;
when absent, insert into all three sets. -/
def addEdgeTo (s : EdgeState) (a t : String) : EdgeState :=
  if t ∈ s.outgoing then s
  else
    { outgoing := insert t s.outgoing
      incoming := insert a s.incoming
      observers := insert t s.observers }

/-- `BaseNode.remove_edge_to`: unconditional `discard` from all three
sets. -/
def removeEdgeTo (s : EdgeState) (a t : String) : EdgeState :=
  { outgoing := s.outgoing.erase t
    incoming := s.incoming.erase a
    observers := s.observers.erase t }

/-! ### ObserverGraph (`app/engine/graph/graph.py`) -/

/-- `ObserverGraph.trigger_event`: look the node up in the registry
(a dict embedded as an association list with unique keys); silently
drop when unknown, otherwise `await node.update(event)` — whatever
`update` raises propagates to the caller. -/
def triggerEvent (reg : List (String × Node)) (nid : String)
    (e : GraphEvent) (now freshId ts : String) :
    Except Exn (Option (Node × List (String × GraphEvent))) :=
  match reg.lookup nid with
  | none => .ok none
  | some n =>
    match update n e now freshId ts with
    | .error msg => .error msg
    | .ok r => .ok (some r)

/-- Delivery trace of a pipeline result (empty when it raised). -/
def traceOf (r : Except Exn (Node × List (String × GraphEvent))) :
    List (String × GraphEvent) :=
  match r with
  | .ok (_, t) => t
  | .error _ => []

/-- Observer ids that received the event in a pipeline result. -/
def recipientsOf (r : Except Exn (Node × List (String × GraphEvent))) :
    List String :=
  (traceOf r).map Prod.fst

/-! ### SwitchNode fan-out override
(`dna_core/engine/nodes/condition/switch_node.py`) -/

/-- `SwitchNode.notify_observers`: stamp, record and count as the base
class does; then a ROUTING_DECISION event with a truthy
`data["target_node"]` goes only to the first observer whose `id` equals
the target (nobody when no observer matches), while a ROUTING_DECISION
event with a falsy target — `None` included — falls through to the
broadcast loop, exactly like a non-routing event.  `data.get` on a
non-dict payload raises `AttributeError`. -/
def switchNotifyObservers (n : Node) (e : GraphEvent) (now : String) :
    Except Exn (Node × List (String × GraphEvent)) :=
  let e' := { e with source_id := n.id }
  let n' := { n with
    eventHistory := pushHistory n.eventHistory e'
    metrics := { n.metrics with
      events_sent := n.metrics.events_sent + 1
      last_activity := some now } }
  if e'.type = .ROUTING_DECISION then
    match e'.data with
    | .dict m =>
      let t := dictGet m "target_node"
      if t.truthy then
        match n.observers.find? (fun oid => pyStrEq oid t) with
        | some oid => .ok (n', [(oid, e')])
        | none => .ok (n', [])
      else
        .ok (n', n.observers.map (fun oid => (oid, e')))
    | _ => .error "AttributeError: data has no attribute get"
  else
    .ok (n', n.observers.map (fun oid => (oid, e')))

/-! ### SwitchProcessor
(`app/engine/nodes/condition/switch_processor.py`)

The `jsonLogic` evaluator is the external `json_logic` library, not code
of this repository; it is passed as an oracle
`evalLogic : condition → data → Except Exn Val`. -/

/-- One named rule of the `rules` config: `rule_config.get("condition")`
and `rule_config.get("then")` (both default `None`). -/
structure SwitchRuleConfig where
  condition : Val := .null
  thenTarget : Val := .null

/-- One entry of the `rules` list: a dict of named rules. -/
abbrev RuleGroup := List (String × SwitchRuleConfig)

/-- The matched-rule dict built by `SwitchProcessor._evaluate_rules`
(and the default-target case, where name and condition stay absent). -/
structure MatchedRule where
  rule_name : Val := .null
  target : Val := .null
  condition : Val := .null

/-- `SwitchProcessor` state: `config.get("rules", [])` and
`config.get("default_target", None)`. -/
structure SwitchProcessorCfg where
  rules : List RuleGroup := []
  default_target : Val := .null

/-- `SwitchProcessor._evaluate_single_rule`: a falsy condition never
matches; a `jsonLogic` exception is caught and yields `False`; otherwise
the truthiness of the evaluation result decides. -/
def evaluateSingleRule (evalLogic : Val → Val → Except Exn Val)
    (data : Val) (rc : SwitchRuleConfig) : Bool :=
  if !rc.condition.truthy then false
  else
    match evalLogic rc.condition data with
    | .ok v => v.truthy
    | .error _ => false

/-- The inner loop of `SwitchProcessor._evaluate_rules` over one rule
group (the per-rule try/except catches nothing beyond what
`_evaluate_single_rule` already swallows for well-typed configs). -/
def evaluateGroup (evalLogic : Val → Val → Except Exn Val) (data : Val) :
    RuleGroup → Option MatchedRule
  | [] => none
  | (name, rc) :: rest =>
    if evaluateSingleRule evalLogic data rc then
      some { rule_name := .str name, target := rc.thenTarget,
             condition := rc.condition }
    else evaluateGroup evalLogic data rest

/-- `SwitchProcessor._evaluate_rules`: first match over the rule groups
in registration order. -/
def evaluateRules (evalLogic : Val → Val → Except Exn Val) (data : Val) :
    List RuleGroup → Option MatchedRule
  | [] => none
  | g :: gs =>
    match evaluateGroup evalLogic data g with
    | some r => some r
    | none => evaluateRules evalLogic data gs

/-- `SwitchProcessor._create_routing_event`. -/
def createRoutingEvent (orig : GraphEvent) (r : MatchedRule)
    (nid freshId ts : String) : GraphEvent :=
  { id := freshId
    type := .ROUTING_DECISION
    data := .dict [("original_data", orig.data), ("target_node", r.target),
                   ("rule_name", r.rule_name), ("condition", r.condition),
                   ("routing_type", .str "jsonlogic_switch")]
    source_id := nid
    timestamp := ts
    metadata := dictMerge [("status", .str "routed"), ("target", r.target)]
      orig.metadata }

/-- `SwitchProcessor._create_no_match_event`. -/
def createNoMatchEvent (orig : GraphEvent) (nid freshId ts : String) :
    GraphEvent :=
  { id := freshId
    type := .ROUTING_DECISION
    data := .dict [("original_data", orig.data), ("target_node", .null),
                   ("routing_type", .str "jsonlogic_switch"),
                   ("status", .str "no_match")]
    source_id := nid
    timestamp := ts
    metadata := dictMerge [("status", .str "no_match")] orig.metadata }

/-- `SwitchProcessor._create_error_event` (reached only by exceptions
outside the per-rule evaluation, e.g. malformed rule groups). -/
def createSwitchErrorEvent (msg : String) (orig : GraphEvent)
    (nid freshId ts : String) : GraphEvent :=
  { id := freshId
    type := .ERROR
    data := .dict [("error", .str msg), ("original_data", orig.data),
                   ("routing_type", .str "jsonlogic_switch")]
    source_id := nid
    timestamp := ts
    metadata := dictMerge [("status", .str "error")] orig.metadata }

/-- `SwitchProcessor.process`: first matching rule wins, then the truthy
default target, then the no-match routing event.  For well-typed
configs nothing inside the outer try raises: per-rule evaluation errors
were already swallowed by `_evaluate_single_rule`. -/
def switchProcess (evalLogic : Val → Val → Except Exn Val)
    (sp : SwitchProcessorCfg) (e : GraphEvent) (nid freshId ts : String) :
    GraphEvent :=
  match evaluateRules evalLogic e.data sp.rules with
  | some r => createRoutingEvent e r nid freshId ts
  | none =>
    if sp.default_target.truthy then
      createRoutingEvent e { target := sp.default_target } nid freshId ts
    else
      createNoMatchEvent e nid freshId ts

/-! ### HTTP retry processors
(`app/engine/nodes/http/http_processor.py`)

The network is the external `aiohttp` library; each attempt is an
oracle `attempts : Nat → AttemptOutcome` indexed by the 0-based attempt
number.  The model returns the produced event, the number of attempts
made, and the list of `retry_delay` sleeps performed between
attempts. -/

/-- Outcome of one HTTP attempt: success, `asyncio.TimeoutError`,
`aiohttp.ClientError`, or an unexpected exception. -/
inductive AttemptOutcome where
  | success (content : Val) (status : Int)
  | timeout
  | clientError (msg : String)
  | unexpected (msg : String)
deriving Repr

/-- Python `str.startswith` as a character-list prefix test
(`String.startsWith` itself is not kernel-reducible). -/
def strStartsWith (s pre : String) : Bool := pre.data.isPrefixOf s.data

/-- `HTTPProcessor._validate_request_data`: a dict with a string `url`
starting with `http://` or `https://`. -/
def validRequestData : Val → Bool
  | .dict m =>
    match m.lookup "url" with
    | some (.str u) =>
      strStartsWith u "http://" || strStartsWith u "https://"
    | _ => false
  | _ => false

/-- `HTTPProcessor._create_response_event`: COMPUTATION_RESULT whose
metadata dict literal is written over by the original metadata
(`attempt` is the 1-based attempt number), and whose `source_id` copies
the original event (the `node_id` parameter is unused by the source). -/
def createResponseEvent (content : Val) (status : Int) (e : GraphEvent)
    (nid : String) (attempt : Nat) (freshId ts : String) : GraphEvent :=
  let _ := nid
  { id := freshId
    type := .COMPUTATION_RESULT
    data := .dict [("content", content), ("status", .int status)]
    metadata := dictMerge
      [("status", .int status), ("attempt", .int (attempt + 1 : Nat))]
      e.metadata
    source_id := e.source_id
    timestamp := ts }

/-- The retry loop of `HTTPGetRequestProcessor.process` (and its POST /
PUT / PATCH / DELETE siblings, which share the same control flow):
`rem` is the number of loop iterations left and `i` the current 0-based
attempt, so `rem = 1` is exactly the final attempt
(`attempt == self.retries - 1`).  A timeout or client error on a
non-final attempt falls through to `sleep(retry_delay)`; an unexpected
exception returns the error event at once. -/
def httpGo (attempts : Nat → AttemptOutcome) (d : ℚ) (e : GraphEvent)
    (nid freshId ts : String) :
    Nat → Nat → Option GraphEvent × Nat × List ℚ
  | 0, _ => (none, 0, [])
  | rem + 1, i =>
    match attempts i with
    | .success c s =>
      (some (createResponseEvent c s e nid i freshId ts), 1, [])
    | .timeout =>
      if rem = 0 then
        (some (createErrorEvent "Request timeout" e nid freshId ts), 1, [])
      else
        let (r, k, ds) := httpGo attempts d e nid freshId ts rem (i + 1)
        (r, k + 1, d :: ds)
    | .clientError m =>
      if rem = 0 then
        (some (createErrorEvent ("HTTP request failed: " ++ m) e nid
          freshId ts), 1, [])
      else
        let (r, k, ds) := httpGo attempts d e nid freshId ts rem (i + 1)
        (r, k + 1, d :: ds)
    | .unexpected m =>
      (some (createErrorEvent ("Unexpected error: " ++ m) e nid freshId ts),
        1, [])

/-- `HTTPGetRequestProcessor.process`: validation first (the error event
shape is shared with `BaseNode.create_error_event`), then the retry
loop over `retries` attempts. -/
def httpProcess (retries : Nat) (d : ℚ) (attempts : Nat → AttemptOutcome)
    (e : GraphEvent) (nid freshId ts : String) :
    Option GraphEvent × Nat × List ℚ :=
  if validRequestData e.data then
    httpGo attempts d e nid freshId ts retries 0
  else
    (some (createErrorEvent "Invalid request data" e nid freshId ts), 0, [])

/-! ### MQTT connection manager
(`dna_core/engine/nodes/mqtt/mqtt_connection_manager.py`)

The broker is the external `aiomqtt` library; attempt `n` (0-based,
equal to the number of failures so far) is an oracle
`outcome : Nat → Option String` (`none` = connected, `some msg` =
`MqttError`).  The model returns the result and the list of computed
backoff delays, one per failed attempt (the delay of the final failed
attempt is computed and logged before the terminal error is raised,
and is never slept). -/

/-- Result of `MQTTConnectionManager.connect`. -/
inductive ConnectResult where
  | connected
  | exhausted (msg : String)
  | fellThrough
deriving Repr, DecidableEq

/-- The `while self._reconnect_attempts < self._max_retries` loop of
`connect`: `n` counts failures so far and `rem = maxR - n` is the fuel,
so `rem = 0` is exactly the loop condition turning false (reachable
only with `max_retries = 0`, where `connect` returns without
connecting).  After the `n+1`-th failure the delay
`min(retry_delay * backoff ^ n, max_retry_delay)` is computed; the loop
raises `ConnectionError` when the failure count reaches `max_retries`,
otherwise sleeps that delay and retries. -/
def connectLoop (outcome : Nat → Option String) (rd bo maxd : ℚ)
    (maxR : Nat) : Nat → Nat → ConnectResult × List ℚ
  | 0, _ => (.fellThrough, [])
  | rem + 1, n =>
    match outcome n with
    | none => (.connected, [])
    | some msg =>
      let delay := min (rd * bo ^ (n + 1 - 1)) maxd
      if maxR ≤ n + 1 then (.exhausted msg, [delay])
      else
        let (r, ds) := connectLoop outcome rd bo maxd maxR rem (n + 1)
        (r, delay :: ds)

/-- `MQTTConnectionManager.connect`: a falsy `credential.hostname`
raises `ValueError`, otherwise the retry loop runs with
`_reconnect_attempts` reset to 0. -/
def mqttConnect (hostname : Val) (outcome : Nat → Option String)
    (rd bo maxd : ℚ) (maxR : Nat) :
    Except Exn (ConnectResult × List ℚ) :=
  if !hostname.truthy then
    .error "MQTT hostname is required in credential.hostname"
  else
    .ok (connectLoop outcome rd bo maxd maxR maxR 0)

/-! ### Graph lifecycle (`ObserverGraph.start` / `stop`)

Modelled from the spec: the lifecycle-aware `ObserverGraph` lives in
`dna_core/engine/graph/graph.py`, which is imported by
`dna_core/engine/graph/__init__.py` but absent from the source snapshot;
the `app/engine/graph/graph.py` variant predates lifecycle support and
has no `start`/`stop`.  Spec 4.2: start/stop iterate the registry and
invoke `start`/`stop` on every lifecycle-capable node, in insertion
order. -/

/-- Modelled from the spec: a registered node as the lifecycle walk
sees it — its id, whether it implements the `ILifecycle` capability,
and its running flag. -/
structure LNode where
  id : String
  lifecycleCapable : Bool
  running : Bool := false
deriving Repr, DecidableEq

/-- Modelled from the spec: `ObserverGraph.start()` walks the registry
in insertion order, invoking `start` on every lifecycle-capable node;
returns the updated registry and the ids invoked, in order. -/
def graphStart : List LNode → List LNode × List String
  | [] => ([], [])
  | nd :: rest =>
    if nd.lifecycleCapable then
      ({ nd with running := true } :: (graphStart rest).1,
        nd.id :: (graphStart rest).2)
    else (nd :: (graphStart rest).1, (graphStart rest).2)

/-- Modelled from the spec: `ObserverGraph.stop()`, symmetric to
`graphStart`. -/
def graphStop : List LNode → List LNode × List String
  | [] => ([], [])
  | nd :: rest =>
    if nd.lifecycleCapable then
      ({ nd with running := false } :: (graphStop rest).1,
        nd.id :: (graphStop rest).2)
    else (nd :: (graphStop rest).1, (graphStop rest).2)

/-! ## Helper lemmas -/

theorem lookup_dictSet_self (d : List (String × Val)) (k : String)
    (v : Val) : (dictSet d k v).lookup k = some v := by
  induction d with
  | nil => simp [dictSet, List.lookup]
  | cons hd tl ih =>
    obtain ⟨k1, v1⟩ := hd
    by_cases h1 : k1 = k
    · subst h1
      simp [dictSet, List.lookup]
    · have hbeq : (k == k1) = false := by
        simp [beq_iff_eq]
        exact fun hk => h1 hk.symm
      simp [dictSet, h1, List.lookup, hbeq, ih]

theorem lookup_dictSet_ne (d : List (String × Val)) (k k' : String)
    (v : Val) (h : k' ≠ k) :
    (dictSet d k v).lookup k' = d.lookup k' := by
  have hbeq : (k' == k) = false := by simpa [beq_iff_eq] using h
  induction d with
  | nil => simp [dictSet, List.lookup, hbeq]
  | cons hd tl ih =>
    obtain ⟨k1, v1⟩ := hd
    by_cases h1 : k1 = k
    · subst h1
      simp [dictSet, List.lookup, hbeq]
    · cases hb1 : (k' == k1) with
      | true => simp [dictSet, h1, List.lookup, hb1]
      | false => simp [dictSet, h1, List.lookup, hb1, ih]

theorem lookup_dictMerge_none (base upd : List (String × Val))
    (k : String) (h : upd.lookup k = none) :
    (dictMerge base upd).lookup k = base.lookup k := by
  induction upd generalizing base with
  | nil => rfl
  | cons hd tl ih =>
    obtain ⟨k1, v1⟩ := hd
    simp only [List.lookup] at h
    cases hb1 : (k == k1) with
    | true => simp [hb1] at h
    | false =>
      simp only [hb1] at h
      show (dictMerge (dictSet base k1 v1) tl).lookup k = _
      rw [ih (dictSet base k1 v1) h,
        lookup_dictSet_ne base k1 k v1 (by simpa [beq_iff_eq] using hb1)]

theorem notifyObservers_fst_state (n : Node) (e : GraphEvent)
    (now : String) : (notifyObservers n e now).1.state = n.state := rfl

theorem runPipeline_preserves (n : Node) (e : GraphEvent) (now : String)
    (n2 : Node) (tr : List (String × GraphEvent))
    (h : runPipeline n e now = .ok (n2, tr)) :
    n2.state = n.state ∧
      n2.metrics.events_processed = n.metrics.events_processed ∧
      n2.metrics.errors = n.metrics.errors := by
  unfold runPipeline at h
  cases hb : runBefore n.middleware e n.id with
  | error msg => rw [hb] at h; exact absurd h (by simp)
  | ok pe =>
    rw [hb] at h
    dsimp only at h
    cases hp : runProcessors n.processors pe (buildContext n) with
    | error msg => rw [hp] at h; exact absurd h (by simp)
    | ok res0 =>
      rw [hp] at h
      dsimp only at h
      cases ha : runAfter n.middleware pe res0 n.id with
      | error msg => rw [ha] at h; exact absurd h (by simp)
      | ok res =>
        rw [ha] at h
        cases res with
        | some ev =>
          dsimp only at h
          injection h with h1
          have h2 : (notifyObservers n ev now).1 = n2 := congrArg Prod.fst h1
          subst h2
          exact ⟨rfl, rfl, rfl⟩
        | none =>
          dsimp only at h
          injection h with h1
          have h2 : n = n2 := congrArg Prod.fst h1
          subst h2
          exact ⟨rfl, rfl, rfl⟩

theorem runFilters_total (e : GraphEvent)
    (fs : List (GraphEvent → Except Exn Bool))
    (hf : ∀ f ∈ fs, ∃ b, f e = .ok b) :
    ∃ b, runFilters e fs = .ok b := by
  induction fs with
  | nil => exact ⟨true, rfl⟩
  | cons f rest ih =>
    obtain ⟨b, hb⟩ := hf f (List.mem_cons_self f rest)
    obtain ⟨b', hb'⟩ := ih (fun g hg => hf g (List.mem_cons_of_mem f hg))
    unfold runFilters
    rw [hb]
    cases b with
    | false => exact ⟨false, rfl⟩
    | true => exact ⟨b', hb'⟩

theorem update_total (n : Node) (e : GraphEvent) (now fid ts : String)
    (hsp : ∃ b, shouldProcessEvent n e = .ok b) :
    ∃ r, update n e now fid ts = .ok r := by
  obtain ⟨b, hb⟩ := hsp
  unfold update
  rw [hb]
  cases b with
  | false => exact ⟨(n, []), rfl⟩
  | true =>
    dsimp only
    cases hp : runPipeline (markProcessing n) e now with
    | ok p =>
      obtain ⟨n2, tr⟩ := p
      exact ⟨_, rfl⟩
    | error msg => exact ⟨_, rfl⟩

theorem runFilters_all_true (e : GraphEvent)
    (fs : List (GraphEvent → Except Exn Bool))
    (h : ∀ f ∈ fs, f e = .ok true) :
    runFilters e fs = .ok true := by
  induction fs with
  | nil => rfl
  | cons f rest ih =>
    unfold runFilters
    rw [h f (List.mem_cons_self f rest)]
    exact ih (fun g hg => h g (List.mem_cons_of_mem f hg))

/-! ## Concrete fixtures -/

/-- A plain DATA_CHANGE event with empty metadata. -/
def sampleEvent : GraphEvent := { type := .DATA_CHANGE, data := .int 5 }

/-- A freshly constructed node (IDLE, no filters, no processors). -/
def plainNode : Node := { id := "pn" }

/-- A node whose state is DISABLED. -/
def disabledNode : Node := { id := "dn", state := .DISABLED }

/-- A node whose state is ERROR (left over from a previous failure). -/
def errorStateNode : Node := { id := "en", state := .ERROR }

/-- A processor that accepts every event and always raises. -/
def failProcessor : Processor :=
  { canHandle := fun _ => true, process := fun _ _ => .error "boom" }

/-- A node with one observer whose only processor always raises. -/
def failNode : Node :=
  { id := "fn", observers := ["obs"], processors := [failProcessor] }

/-- An event whose metadata already binds the key `status`. -/
def statusOkEvent : GraphEvent :=
  { type := .DATA_CHANGE, data := .int 1,
    metadata := [("status", .str "ok")] }

/-- A node with one event filter that raises. -/
def raisingFilterNode : Node :=
  { id := "rf", eventFilters := [fun _ => .error "filter boom"] }

/-! ## Claims -/

/-- C1 (amended): after `N.update(E)` the node state is IDLE or ERROR
whenever the node actually processes the event, i.e. whenever
`_should_process_event` accepts it; when the event is dropped (DISABLED
state or a rejecting filter) the node is returned unchanged, so a
DISABLED node stays DISABLED. -/
theorem C1_update_ends_idle_or_error (n : Node) (e : GraphEvent)
    (now fid ts : String) :
    (shouldProcessEvent n e = .ok true →
      ∃ n' tr, update n e now fid ts = .ok (n', tr) ∧
        (n'.state = .IDLE ∨ n'.state = .ERROR))
    ∧ (shouldProcessEvent n e = .ok false →
      update n e now fid ts = .ok (n, [])) := by
  constructor
  · intro h
    unfold update
    rw [h]
    dsimp only
    cases hp : runPipeline (markProcessing n) e now with
    | ok p =>
      obtain ⟨n2, tr⟩ := p
      exact ⟨{ n2 with state := .IDLE }, tr, rfl, Or.inl rfl⟩
    | error msg =>
      exact ⟨_, _, rfl, Or.inr rfl⟩
  · intro h
    unfold update
    rw [h]

/-- C1 witness: a plain IDLE node processing a DATA_CHANGE event ends in
IDLE or ERROR. -/
theorem C1_witness :
    ∃ n' tr, update plainNode sampleEvent "now" "fid" "ts" = .ok (n', tr)
      ∧ (n'.state = .IDLE ∨ n'.state = .ERROR) :=
  (C1_update_ends_idle_or_error plainNode sampleEvent "now" "fid" "ts").1 rfl

/-- C1 counterexample: a DISABLED node is returned unchanged by
`update`, so its state after the call is DISABLED — neither IDLE nor
ERROR, refuting the claim for the DISABLED starting state. -/
theorem C1_counterexample :
    update disabledNode sampleEvent "now" "fid" "ts"
        = .ok (disabledNode, [])
      ∧ ¬ (disabledNode.state = .IDLE ∨ disabledNode.state = .ERROR) :=
  ⟨rfl, by decide⟩

/-- C2 (amended): when the middleware/processor/fan-out steps raise,
`update` increments `errors`, ends in state ERROR, and fans out to every
observer a synthesized ERROR event with payload
`(error, message), (original_request, original data)` and metadata equal
to the original metadata written over the single-entry dict
`(status, "error")` — the original entries win, so `status` maps to
`"error"` exactly when the original metadata has no `status` key. -/
theorem C2_exception_error_event (n : Node) (e : GraphEvent)
    (now fid ts : String) (msg : Exn)
    (hb : shouldProcessEvent n e = .ok true)
    (hp : runPipeline (markProcessing n) e now = .error msg) :
    ∃ n', update n e now fid ts =
        .ok (n', n.observers.map fun oid =>
          (oid, createErrorEvent msg e n.id fid ts))
      ∧ n'.state = .ERROR
      ∧ n'.metrics.errors = n.metrics.errors + 1
      ∧ (createErrorEvent msg e n.id fid ts).type = .ERROR
      ∧ (createErrorEvent msg e n.id fid ts).data =
          .dict [("error", .str msg), ("original_request", e.data)]
      ∧ (createErrorEvent msg e n.id fid ts).metadata =
          dictMerge [("status", .str "error")] e.metadata
      ∧ (e.metadata.lookup "status" = none →
          (createErrorEvent msg e n.id fid ts).metadata.lookup "status"
            = some (.str "error")) := by
  unfold update
  rw [hb]
  dsimp only
  rw [hp]
  refine ⟨_, rfl, rfl, rfl, rfl, rfl, rfl, fun h => ?_⟩
  show (dictMerge [("status", Val.str "error")] e.metadata).lookup "status"
    = some (.str "error")
  rw [lookup_dictMerge_none _ _ _ h]
  rfl

/-- C2 witness: a node whose processor raises, on an event with empty
metadata, ends in ERROR with the errors counter bumped and the ERROR
event delivered to its observer. -/
theorem C2_witness :
    ∃ n', update failNode sampleEvent "now" "fid" "ts" =
        .ok (n', failNode.observers.map fun oid =>
          (oid, createErrorEvent "boom" sampleEvent failNode.id "fid" "ts"))
      ∧ n'.state = .ERROR
      ∧ n'.metrics.errors = failNode.metrics.errors + 1 := by
  obtain ⟨n', h1, h2, h3, _⟩ :=
    C2_exception_error_event failNode sampleEvent "now" "fid" "ts" "boom"
      rfl rfl
  exact ⟨n', h1, h2, h3⟩

/-- C2 counterexample: when the original metadata already binds
`status` (here to `"ok"`), the fanned-out ERROR event keeps that value —
its metadata does not map `status` to `"error"`, refuting the claimed
merge direction. -/
theorem C2_counterexample :
    (traceOf (update failNode statusOkEvent "now" "fid" "ts")).map
        (fun p => (p.1, p.2.type, p.2.metadata.lookup "status"))
      = [("obs", EventType.ERROR, some (.str "ok"))] := rfl

/-- C5 (amended): `trigger_event` never raises as long as the filter
predicates of the target node do not raise: every exception from the
middleware/processor/fan-out pipeline is converted into an ERROR event.
A raising filter predicate, which runs before the try of `update`,
still propagates to the caller. -/
theorem C5_trigger_event_no_raise (reg : List (String × Node))
    (nid : String) (e : GraphEvent) (now fid ts : String)
    (hf : ∀ n, reg.lookup nid = some n →
      ∀ f ∈ n.eventFilters, ∃ b, f e = .ok b) :
    ∃ r, triggerEvent reg nid e now fid ts = .ok r := by
  unfold triggerEvent
  cases hl : reg.lookup nid with
  | none => exact ⟨none, rfl⟩
  | some n =>
    dsimp only
    have hsp : ∃ b, shouldProcessEvent n e = .ok b := by
      unfold shouldProcessEvent
      by_cases hd : n.state = .DISABLED
      · rw [if_pos hd]; exact ⟨false, rfl⟩
      · rw [if_neg hd]
        exact runFilters_total e n.eventFilters (hf n hl)
    obtain ⟨r, hr⟩ := update_total n e now fid ts hsp
    rw [hr]
    exact ⟨some r, rfl⟩

/-- C5 witness: triggering a registered plain node (whose filters are
total, trivially — it has none) returns without raising. -/
theorem C5_witness :
    ∃ r, triggerEvent [("pn", plainNode)] "pn" sampleEvent
        "now" "fid" "ts" = .ok r := by
  refine C5_trigger_event_no_raise [("pn", plainNode)] "pn" sampleEvent
    "now" "fid" "ts" ?_
  intro n hn f hfm
  rw [show List.lookup "pn" [("pn", plainNode)] = some plainNode from rfl]
    at hn
  injection hn with h
  subst h
  simp [plainNode] at hfm

/-- C5 counterexample: a registered node with a raising filter predicate
makes `trigger_event` raise — the exception propagates to the caller,
refuting the claim for arbitrary filter behaviour. -/
theorem C5_counterexample :
    triggerEvent [("rf", raisingFilterNode)] "rf" sampleEvent
        "now" "fid" "ts" = .error "filter boom" := rfl

/-- C10: only the DISABLED state suppresses processing.  A node in any
other state whose filters all accept runs the pipeline (the
`events_processed` counter is bumped), ends in IDLE or ERROR, and in
particular ends in IDLE whenever the pipeline run succeeds — so a node
left in ERROR processes the next event normally. -/
theorem C10_only_disabled_suppresses (n : Node) (e : GraphEvent)
    (now fid ts : String)
    (hs : n.state ≠ .DISABLED)
    (hfilters : ∀ f ∈ n.eventFilters, f e = .ok true) :
    shouldProcessEvent n e = .ok true
    ∧ ∃ n' tr, update n e now fid ts = .ok (n', tr)
      ∧ n'.metrics.events_processed = n.metrics.events_processed + 1
      ∧ (n'.state = .IDLE ∨ n'.state = .ERROR)
      ∧ ((runPipeline (markProcessing n) e now).isOk → n'.state = .IDLE) := by
  have hrf : runFilters e n.eventFilters = .ok true :=
    runFilters_all_true e n.eventFilters hfilters
  have hsp : shouldProcessEvent n e = .ok true := by
    unfold shouldProcessEvent
    rw [if_neg hs]
    exact hrf
  refine ⟨hsp, ?_⟩
  unfold update
  rw [hsp]
  dsimp only
  cases hp : runPipeline (markProcessing n) e now with
  | ok p =>
    obtain ⟨n2, tr⟩ := p
    obtain ⟨_, hep, _⟩ :=
      runPipeline_preserves (markProcessing n) e now n2 tr hp
    refine ⟨{ n2 with state := .IDLE }, tr, rfl, ?_, Or.inl rfl, fun _ => rfl⟩
    show n2.metrics.events_processed = _
    rw [hep]
    rfl
  | error msg =>
    refine ⟨_, _, rfl, rfl, Or.inr rfl, fun hok => ?_⟩
    exact absurd hok (by simp [Except.isOk, Except.toBool])

/-- C10 witness: a node left in state ERROR still processes the next
event and, the pipeline succeeding, returns to IDLE. -/
theorem C10_witness :
    ∃ n' tr, update errorStateNode sampleEvent "now" "fid" "ts"
        = .ok (n', tr) ∧ n'.state = .IDLE := by
  obtain ⟨_, n', tr, h1, _, _, h4⟩ :=
    C10_only_disabled_suppresses errorStateNode sampleEvent "now" "fid" "ts"
      (by decide) (by simp [errorStateNode])
  exact ⟨n', tr, h1, h4 rfl⟩

theorem switchRecipients_routing (n : Node) (e : GraphEvent)
    (now : String) (m : List (String × Val)) (hd : e.data = .dict m)
    (ht : e.type = .ROUTING_DECISION) :
    recipientsOf (switchNotifyObservers n e now) =
      if (dictGet m "target_node").truthy then
        (n.observers.find? fun oid =>
          pyStrEq oid (dictGet m "target_node")).toList
      else n.observers := by
  unfold switchNotifyObservers recipientsOf traceOf
  dsimp only
  rw [if_pos ht, hd]
  dsimp only
  by_cases htr : (dictGet m "target_node").truthy
  · rw [if_pos htr, if_pos htr]
    cases hfind : n.observers.find? fun oid =>
        pyStrEq oid (dictGet m "target_node") with
    | some oid => simp
    | none => simp
  · rw [if_neg htr, if_neg htr]
    rw [List.map_map]
    exact List.map_id n.observers

theorem switchRecipients_nonrouting (n : Node) (e : GraphEvent)
    (now : String) (ht : e.type ≠ .ROUTING_DECISION) :
    recipientsOf (switchNotifyObservers n e now) = n.observers := by
  unfold switchNotifyObservers recipientsOf traceOf
  dsimp only
  rw [if_neg ht]
  rw [List.map_map]
  exact List.map_id n.observers

/-- A switch node with two observers. -/
def switchTwoObs : Node := { id := "sw", observers := ["x", "y"] }

/-- A ROUTING_DECISION event whose `target_node` is null (the shape of
the no-match routing event). -/
def routingNullEvent : GraphEvent :=
  { type := .ROUTING_DECISION,
    data := .dict [("original_data", .null), ("target_node", .null),
                   ("routing_type", .str "jsonlogic_switch"),
                   ("status", .str "no_match")] }

/-- A ROUTING_DECISION event whose `target_node` is `"x"`. -/
def routingXEvent : GraphEvent :=
  { type := .ROUTING_DECISION,
    data := .dict [("original_data", .null), ("target_node", .str "x"),
                   ("routing_type", .str "jsonlogic_switch")] }

/-- C3 (amended): SwitchNode fan-out routes a ROUTING_DECISION event
with a truthy `target_node` only to the first observer whose id equals
the target (every recipient id equals the target); a ROUTING_DECISION
event with a falsy target — null included — falls through to the
broadcast loop and reaches every observer, as does an event of any
other type. -/
theorem C3_switch_selective_fanout (n : Node) (e : GraphEvent)
    (now : String) (m : List (String × Val)) (hd : e.data = .dict m) :
    (e.type = .ROUTING_DECISION →
      (dictGet m "target_node").truthy = true →
        recipientsOf (switchNotifyObservers n e now) =
          (n.observers.find? fun oid =>
            pyStrEq oid (dictGet m "target_node")).toList
        ∧ ∀ oid ∈ recipientsOf (switchNotifyObservers n e now),
            pyStrEq oid (dictGet m "target_node") = true)
    ∧ (e.type = .ROUTING_DECISION →
      (dictGet m "target_node").truthy = false →
        recipientsOf (switchNotifyObservers n e now) = n.observers)
    ∧ (e.type ≠ .ROUTING_DECISION →
        recipientsOf (switchNotifyObservers n e now) = n.observers) := by
  refine ⟨fun h1 h2 => ⟨?_, ?_⟩, fun h1 h2 => ?_, fun h1 => ?_⟩
  · rw [switchRecipients_routing n e now m hd h1, if_pos h2]
  · intro oid hmem
    rw [switchRecipients_routing n e now m hd h1, if_pos h2] at hmem
    cases hfind : n.observers.find? fun oid =>
        pyStrEq oid (dictGet m "target_node") with
    | some o =>
      rw [hfind] at hmem
      simp only [Option.toList_some, List.mem_singleton] at hmem
      subst hmem
      have h5 := List.find?_some hfind
      exact h5
    | none =>
      rw [hfind] at hmem
      simp at hmem
  · rw [switchRecipients_routing n e now m hd h1, if_neg (by simp [h2])]
  · exact switchRecipients_nonrouting n e now h1

/-- C3 witness: with observers `x` and `y`, a routing decision targeting
`x` is delivered to `x` alone. -/
theorem C3_witness :
    recipientsOf (switchNotifyObservers switchTwoObs routingXEvent "now")
      = ["x"] := by
  obtain ⟨h1, _⟩ :=
    C3_switch_selective_fanout switchTwoObs routingXEvent "now" _ rfl
  rw [(h1 rfl rfl).1]
  rfl

/-- C3 counterexample: a ROUTING_DECISION whose `target_node` is null is
broadcast to both observers — observer `x`, whose id differs from the
null target, still receives it, refuting the claim for the null
target. -/
theorem C3_counterexample :
    recipientsOf (switchNotifyObservers switchTwoObs routingNullEvent "now")
      = ["x", "y"] := rfl

/-- The external jsonLogic oracle that always raises. -/
def errLogic : Val → Val → Except Exn Val :=
  fun _ _ => .error "jsonlogic boom"

/-- A switch config with a single rule (truthy condition), no default
target. -/
def spFailRule : SwitchProcessorCfg :=
  { rules := [[("r1", { condition := .str "c", thenTarget := .str "big" })]] }

/-- C4 (amended): an error raised while evaluating the condition of a
rule is caught inside `_evaluate_single_rule` and the rule is treated as
a non-match — evaluation continues with the remaining rules; `process`
does not return an ERROR event for such a failure. -/
theorem C4_rule_error_is_nonmatch (evalLogic : Val → Val → Except Exn Val)
    (cond data : Val) (msg : String)
    (h : evalLogic cond data = .error msg) :
    (∀ tgt, evaluateSingleRule evalLogic data
        { condition := cond, thenTarget := tgt } = false)
    ∧ (∀ name tgt gs,
        evaluateRules evalLogic data
            ([(name, { condition := cond, thenTarget := tgt })] :: gs)
          = evaluateRules evalLogic data gs) := by
  have hsingle : ∀ tgt, evaluateSingleRule evalLogic data
      { condition := cond, thenTarget := tgt } = false := by
    intro tgt
    unfold evaluateSingleRule
    by_cases hc : cond.truthy
    · simp only [hc, Bool.not_true, if_false]
      rw [h]
      rfl
    · simp [hc]
  refine ⟨hsingle, fun name tgt gs => ?_⟩
  have hg : evaluateGroup evalLogic data
      [(name, { condition := cond, thenTarget := tgt })] = none := by
    unfold evaluateGroup
    rw [hsingle tgt]
    rfl
  show (match evaluateGroup evalLogic data
      [(name, { condition := cond, thenTarget := tgt })] with
    | some r => some r
    | none => evaluateRules evalLogic data gs)
    = evaluateRules evalLogic data gs
  rw [hg]

/-- C4 witness: with the always-raising jsonLogic oracle, the single
rule is skipped and rule evaluation proceeds past it. -/
theorem C4_witness :
    evaluateSingleRule errLogic (.int 5)
        { condition := .str "c", thenTarget := .str "big" } = false
      ∧ evaluateRules errLogic (.int 5)
          ([("r1", { condition := .str "c", thenTarget := .str "big" })] :: [])
        = evaluateRules errLogic (.int 5) [] := by
  obtain ⟨h1, h2⟩ :=
    C4_rule_error_is_nonmatch errLogic (.str "c") (.int 5) "jsonlogic boom" rfl
  exact ⟨h1 (.str "big"), h2 "r1" (.str "big") []⟩

/-- C4 counterexample: when the only rule raises during evaluation and
no default target is configured, `process` returns the no-match
ROUTING_DECISION event — not an ERROR event, refuting the claim. -/
theorem C4_counterexample :
    switchProcess errLogic spFailRule sampleEvent "sw" "fid" "ts"
        = createNoMatchEvent sampleEvent "sw" "fid" "ts"
      ∧ (switchProcess errLogic spFailRule sampleEvent "sw" "fid" "ts").type
          ≠ EventType.ERROR :=
  ⟨rfl, by decide⟩

/-- An edge state in which the edge a→t is already installed. -/
def edgePresentState : EdgeState :=
  { outgoing := {"t"}, incoming := {"a"}, observers := {"t"} }

/-- C6 (amended): for distinct nodes `a` and `t`, `add_edge_to` followed
by `remove_edge_to` restores all three collections, provided the edge
was not already present (`t` not in the outgoing set of `a`, `a` not in
the incoming set of `t`, `t` not among the observers of `a`). -/
theorem C6_add_remove_restores (s : EdgeState) (a t : String)
    (hne : a ≠ t) (ho : t ∉ s.outgoing) (hi : a ∉ s.incoming)
    (hobs : t ∉ s.observers) :
    removeEdgeTo (addEdgeTo s a t) a t = s := by
  unfold addEdgeTo removeEdgeTo
  rw [if_neg ho]
  dsimp only
  rw [Finset.erase_insert ho, Finset.erase_insert hi,
    Finset.erase_insert hobs]

/-- C6 witness: from the empty edge state, adding and removing the edge
a→t restores the empty state. -/
theorem C6_witness :
    removeEdgeTo (addEdgeTo ⟨∅, ∅, ∅⟩ "a" "t") "a" "t" = ⟨∅, ∅, ∅⟩ :=
  C6_add_remove_restores ⟨∅, ∅, ∅⟩ "a" "t" (by decide) (by decide)
    (by decide) (by decide)

/-- C6 counterexample: if the edge a→t is already present,
`add_edge_to` is a guarded no-op but `remove_edge_to` still deletes the
edge, so the round trip does not restore the pre-state, refuting the
claim for arbitrary starting collections. -/
theorem C6_counterexample :
    removeEdgeTo (addEdgeTo edgePresentState "a" "t") "a" "t"
      ≠ edgePresentState := by decide

theorem httpGo_all_timeout (attempts : Nat → AttemptOutcome) (d : ℚ)
    (e : GraphEvent) (nid fid ts : String)
    (h : ∀ j, attempts j = .timeout) :
    ∀ rem i, httpGo attempts d e nid fid ts (rem + 1) i =
      (some (createErrorEvent "Request timeout" e nid fid ts), rem + 1,
        List.replicate rem d) := by
  intro rem
  induction rem with
  | zero =>
    intro i
    unfold httpGo
    rw [h i]
    rfl
  | succ r ih =>
    intro i
    unfold httpGo
    rw [h i]
    dsimp only
    rw [if_neg (Nat.succ_ne_zero r), ih (i + 1)]
    rw [List.replicate_succ]

theorem httpGo_first_success (attempts : Nat → AttemptOutcome) (d : ℚ)
    (e : GraphEvent) (nid fid ts : String) (c : Val) (st : Int) :
    ∀ s i rem, s + 1 ≤ rem →
      (∀ j, j < s → attempts (i + j) = .timeout) →
      attempts (i + s) = .success c st →
      httpGo attempts d e nid fid ts rem i =
        (some (createResponseEvent c st e nid (i + s) fid ts), s + 1,
          List.replicate s d) := by
  intro s
  induction s with
  | zero =>
    intro i rem h1 _ h3
    obtain ⟨rem', rfl⟩ : ∃ rem', rem = rem' + 1 := ⟨rem - 1, by omega⟩
    unfold httpGo
    rw [show attempts i = .success c st from h3]
    rfl
  | succ s ih =>
    intro i rem h1 h2 h3
    obtain ⟨rem', rfl⟩ : ∃ rem', rem = rem' + 1 := ⟨rem - 1, by omega⟩
    have ht0 : attempts i = .timeout := h2 0 (Nat.succ_pos s)
    have hs' : attempts (i + 1 + s) = .success c st := by
      rwa [show i + (s + 1) = i + 1 + s by omega] at h3
    have ht' : ∀ j, j < s → attempts (i + 1 + j) = .timeout := by
      intro j hj
      have := h2 (j + 1) (by omega)
      rwa [show i + (j + 1) = i + 1 + j by omega] at this
    unfold httpGo
    rw [ht0]
    dsimp only
    rw [if_neg (show rem' ≠ 0 by omega),
      ih (i + 1) rem' (by omega) ht' hs']
    rw [List.replicate_succ]
    rw [show i + 1 + s = i + (s + 1) by omega]

/-- C7 (amended): with valid request data and `retries = r ≥ 1`: if
every attempt times out, `process` makes exactly `r` attempts with
`r - 1` sleeps of `retry_delay` between them and returns the request
timeout ERROR event, whose metadata binds `status` to `"error"`
provided the original metadata does not already bind `status`; if the
first success is attempt `k` (1-based), `process` stops after exactly
`k` attempts and returns a COMPUTATION_RESULT whose metadata binds
`attempt` to `k` provided the original metadata does not already bind
`attempt` (original metadata entries override the synthesized ones). -/
theorem C7_http_retry (attempts : Nat → AttemptOutcome) (r : Nat) (d : ℚ)
    (e : GraphEvent) (nid fid ts : String)
    (hv : validRequestData e.data = true) (hr : 1 ≤ r) :
    ((∀ j, attempts j = .timeout) →
      httpProcess r d attempts e nid fid ts =
        (some (createErrorEvent "Request timeout" e nid fid ts), r,
          List.replicate (r - 1) d)
      ∧ (createErrorEvent "Request timeout" e nid fid ts).type = .ERROR
      ∧ (e.metadata.lookup "status" = none →
          (createErrorEvent "Request timeout" e nid fid
            ts).metadata.lookup "status" = some (.str "error")))
    ∧ (∀ k c st, 1 ≤ k → k ≤ r →
        (∀ j, j < k - 1 → attempts j = .timeout) →
        attempts (k - 1) = .success c st →
          httpProcess r d attempts e nid fid ts =
            (some (createResponseEvent c st e nid (k - 1) fid ts), k,
              List.replicate (k - 1) d)
          ∧ (createResponseEvent c st e nid (k - 1) fid ts).type
              = .COMPUTATION_RESULT
          ∧ (e.metadata.lookup "attempt" = none →
              (createResponseEvent c st e nid (k - 1) fid
                ts).metadata.lookup "attempt" = some (.int k))) := by
  constructor
  · intro h
    refine ⟨?_, rfl, fun hm => ?_⟩
    · unfold httpProcess
      rw [if_pos hv]
      obtain ⟨r', rfl⟩ : ∃ r', r = r' + 1 := ⟨r - 1, by omega⟩
      rw [httpGo_all_timeout attempts d e nid fid ts h r' 0]
      rfl
    · show (dictMerge [("status", Val.str "error")] e.metadata).lookup
        "status" = some (.str "error")
      rw [lookup_dictMerge_none _ _ _ hm]
      rfl
  · intro k c st hk1 hk2 htm hsc
    refine ⟨?_, rfl, fun hm => ?_⟩
    · unfold httpProcess
      rw [if_pos hv]
      have := httpGo_first_success attempts d e nid fid ts c st
        (k - 1) 0 r (by omega)
        (fun j hj => by rw [Nat.zero_add]; exact htm j hj)
        (by rw [Nat.zero_add]; exact hsc)
      rw [Nat.zero_add] at this
      rw [this]
      rw [show k - 1 + 1 = k by omega]
    · show (dictMerge [("status", Val.int st),
          ("attempt", Val.int (k - 1 + 1 : Nat))] e.metadata).lookup
        "attempt" = some (.int k)
      rw [lookup_dictMerge_none _ _ _ hm]
      rw [show k - 1 + 1 = k by omega]
      rfl

/-- The attempt oracle on which every attempt times out. -/
def attemptsAllTimeout : Nat → AttemptOutcome := fun _ => .timeout

/-- The attempt oracle on which attempt 1 (0-based 0) times out and
attempt 2 succeeds. -/
def attemptsSucc2 : Nat → AttemptOutcome :=
  fun i => if i = 0 then .timeout else .success (.str "ok") 200

/-- A valid GET request event with empty metadata. -/
def urlEvent : GraphEvent :=
  { type := .DATA_CHANGE, data := .dict [("url", .str "http://x")] }

/-- A valid GET request event whose metadata already binds `status`. -/
def urlStatusOkEvent : GraphEvent :=
  { type := .DATA_CHANGE, data := .dict [("url", .str "http://x")],
    metadata := [("status", .str "ok")] }

/-- A valid GET request event whose metadata already binds `attempt`. -/
def urlAttempt99Event : GraphEvent :=
  { type := .DATA_CHANGE, data := .dict [("url", .str "http://x")],
    metadata := [("attempt", .int 99)] }

/-- C7 witness: with `retries = 3, retry_delay = 0` and empty original
metadata, three timeouts produce the ERROR event with `status` bound to
`"error"` after exactly 3 attempts, and a success on attempt 2 produces
a COMPUTATION_RESULT with `attempt` bound to 2 after exactly 2
attempts. -/
theorem C7_witness :
    httpProcess 3 0 attemptsAllTimeout urlEvent "n" "f" "t"
        = (some (createErrorEvent "Request timeout" urlEvent "n" "f" "t"),
            3, List.replicate 2 0)
      ∧ (createErrorEvent "Request timeout" urlEvent "n" "f"
          "t").metadata.lookup "status" = some (.str "error")
      ∧ httpProcess 3 0 attemptsSucc2 urlEvent "n" "f" "t"
          = (some (createResponseEvent (.str "ok") 200 urlEvent "n" 1
              "f" "t"), 2, List.replicate 1 0)
      ∧ (createResponseEvent (.str "ok") 200 urlEvent "n" 1 "f"
          "t").metadata.lookup "attempt" = some (.int 2) := by
  obtain ⟨hA, _⟩ :=
    C7_http_retry attemptsAllTimeout 3 0 urlEvent "n" "f" "t" rfl
      (by norm_num)
  obtain ⟨hA1, _, hA3⟩ := hA (fun j => rfl)
  obtain ⟨_, hB⟩ :=
    C7_http_retry attemptsSucc2 3 0 urlEvent "n" "f" "t" rfl (by norm_num)
  obtain ⟨hB1, _, hB3⟩ := hB 2 (.str "ok") 200 (by norm_num) (by norm_num)
    (fun j hj => by
      have hj0 : j = 0 := by omega
      subst hj0
      rfl)
    rfl
  exact ⟨hA1, hA3 rfl, hB1, hB3 rfl⟩

/-- C7 counterexample: when the original event metadata already binds
`status` (resp. `attempt`), the produced event keeps the original value
— the ERROR event of a three-timeout run maps `status` to `"ok"`, and
the success-on-attempt-2 COMPUTATION_RESULT maps `attempt` to 99, not
2, refuting the claimed metadata for arbitrary events. -/
theorem C7_counterexample :
    ((httpProcess 3 0 attemptsAllTimeout urlStatusOkEvent
        "n" "f" "t").1.map
        (fun ev => (ev.type, ev.metadata.lookup "status"))
      = some (.ERROR, some (.str "ok")))
    ∧ ((httpProcess 3 0 attemptsSucc2 urlAttempt99Event
        "n" "f" "t").1.map
        (fun ev => (ev.type, ev.metadata.lookup "attempt"))
      = some (.COMPUTATION_RESULT, some (.int 99))) := ⟨rfl, rfl⟩

theorem connectLoop_all_fail (outcome : Nat → Option String)
    (msg : String) (h : ∀ n, outcome n = some msg) (rd bo maxd : ℚ)
    (maxR : Nat) :
    ∀ rem n, 1 ≤ rem → n + rem = maxR →
      connectLoop outcome rd bo maxd maxR rem n =
        (.exhausted msg, (List.range rem).map fun j =>
          min (rd * bo ^ (n + j)) maxd) := by
  intro rem
  induction rem with
  | zero => intro n h1 _; exact absurd h1 (by omega)
  | succ r ih =>
    intro n h1 h2
    unfold connectLoop
    rw [h n]
    dsimp only
    by_cases hr0 : r = 0
    · subst hr0
      rw [if_pos (by omega)]
      rfl
    · rw [if_neg (by omega), ih (n + 1) (by omega) (by omega)]
      rw [List.range_succ_eq_map, List.map_cons, List.map_map]
      refine congrArg _ (congrArg _ ?_)
      refine List.map_congr_left (fun j _ => ?_)
      show min (rd * bo ^ (n + 1 + j)) maxd
        = min (rd * bo ^ (n + (j + 1))) maxd
      rw [show n + 1 + j = n + (j + 1) by omega]

/-- C8: when every attempt fails, the delay computed after the n-th
failed connect attempt (1-based) is
`min(retry_delay * backoff ^ (n - 1), max_retry_delay)` — the j-th
entry of the delay list, 0-based j = n - 1 — and after `max_retries`
failed attempts `connect` stops with the terminal ConnectionError
(result `exhausted`); the final delay is computed and logged but never
slept. -/
theorem C8_mqtt_backoff (outcome : Nat → Option String) (msg : String)
    (h : ∀ n, outcome n = some msg) (hostname : Val)
    (hh : hostname.truthy = true) (rd bo maxd : ℚ) (maxR : Nat)
    (hr : 1 ≤ maxR) :
    mqttConnect hostname outcome rd bo maxd maxR =
      .ok (.exhausted msg, (List.range maxR).map fun j =>
        min (rd * bo ^ j) maxd) := by
  unfold mqttConnect
  rw [if_neg (by simp [hh])]
  rw [connectLoop_all_fail outcome msg h rd bo maxd maxR maxR 0 hr
    (by omega)]
  simp only [Nat.zero_add]

/-- C8 witness: with `retry_delay = 1, backoff = 2, max_retry_delay =
10, max_retries = 5` and a broker refusing every attempt, the computed
delay sequence is exactly 1, 2, 4, 8, 10 (the last clamped) and the
result is the terminal error. -/
theorem C8_witness :
    mqttConnect (.str "broker") (fun _ => some "refused") 1 2 10 5 =
      .ok (.exhausted "refused", [1, 2, 4, 8, 10]) := by
  rw [C8_mqtt_backoff (fun _ => some "refused") "refused" (fun _ => rfl)
    (.str "broker") rfl 1 2 10 5 (by norm_num)]
  norm_num [List.range_succ]

/-- C9 (spec-modelled): graph `start` and `stop` walk the node registry
in insertion order, invoking `start` (resp. `stop`) on exactly the
lifecycle-capable nodes — the invocation list equals the
insertion-ordered sublist of lifecycle-capable node ids. -/
theorem C9_lifecycle_iteration (reg : List LNode) :
    (graphStart reg).2
        = (reg.filter fun nd => nd.lifecycleCapable).map (fun nd => nd.id)
    ∧ (graphStop reg).2
        = (reg.filter fun nd => nd.lifecycleCapable).map
            (fun nd => nd.id) := by
  induction reg with
  | nil => exact ⟨rfl, rfl⟩
  | cons nd rest ih =>
    obtain ⟨ih1, ih2⟩ := ih
    by_cases hc : nd.lifecycleCapable
    · constructor
      · simp [graphStart, hc, ih1, List.filter_cons]
      · simp [graphStop, hc, ih2, List.filter_cons]
    · constructor
      · simp [graphStart, hc, ih1, List.filter_cons]
      · simp [graphStop, hc, ih2, List.filter_cons]

end DNA
